import Mathlib

/-!
Verification of the sb-auction-api ingestion service (src/server.js, first
revision, and the historical-query revision in src/unnamed/part_000).

The service is embedded shallowly:
* the MongoDB collections are lists of records (`List Auction`,
  `List HistoricalAuction`);
* the asynchronous control flow of `fetchAuctionsWithRetry` is modelled as a
  pure loop; outcomes of store writes and of upstream HTTP requests are
  supplied by oracles, so that error paths can be exercised;
* sleeps (`await new Promise(resolve => setTimeout(...))`) are recorded as
  lists of millisecond durations instead of actually waiting.
-/

namespace SBAuction

/-- Record of the `auctions` collection (auctionSchema in src/server.js):
uuid, auctioneer, item_name, starting_bid, tier, bin, end, item_lore.
The field `end` of the source is called `endTime` here because `end` is a
Lean keyword. -/
structure Auction where
  uuid : String
  auctioneer : String
  item_name : String
  starting_bid : Int
  tier : String
  bin : Bool
  endTime : Int
  item_lore : String
deriving DecidableEq, Repr

/-- Record of the `historicalauctions` collection (historicalAuctionSchema):
_id (the auction uuid), item_name, starting_bid, tier, bin, end (`endTime`
here), auctioneer, and first_seen (default Date.now at creation). -/
structure HistoricalAuction where
  _id : String
  item_name : String
  starting_bid : Int
  tier : String
  bin : Bool
  endTime : Int
  auctioneer : String
  first_seen : Int
deriving DecidableEq, Repr

/-- Construction of the historical record saved by the dedup loop of
`fetchAuctionsWithRetry` (src/server.js lines 90-98); `first_seen` takes the
schema default Date.now, passed here as `now`. -/
def toHistorical (now : Int) (a : Auction) : HistoricalAuction :=
  { _id := a.uuid
    item_name := a.item_name
    starting_bid := a.starting_bid
    tier := a.tier
    bin := a.bin
    endTime := a.endTime
    auctioneer := a.auctioneer
    first_seen := now }

/-- Existence check `HistoricalAuction.exists \x7b _id: auction.uuid \x7d`
(src/server.js line 88) against the list-modelled collection. -/
def existsId (store : List HistoricalAuction) (uuid : String) : Bool :=
  store.any (fun h => h._id = uuid)

/-- Sweep `HistoricalAuction.deleteMany \x7b end: \x7b $lte: now \x7d \x7d`
of cleanupExpiredAuctions (src/server.js lines 151-159): every historical
record whose end is at or before `now` is deleted, i.e. the store keeps
exactly the records with `¬ (end ≤ now)`. -/
def cleanupExpiredAuctions (now : Int) (store : List HistoricalAuction) :
    List HistoricalAuction :=
  store.filter (fun h => !(decide (h.endTime ≤ now)))

/-- Outcome of one `newHistoricalAuction.save(...)` call, supplied by an
oracle: success, a duplicate-key violation (error.code === 11000, raced by a
concurrent writer), or any other store error carrying its message. -/
inductive SaveOutcome where
  | ok
  | dupKey
  | err (msg : String)
deriving DecidableEq, Repr

/-- History-deduplication loop of fetchAuctionsWithRetry (src/server.js
lines 85-109).  For each auction of the batch: check existence by _id; if
absent, save a new historical record and increment newAuctionsCount.  A save
failing with code 11000 is caught and skipped; any other save error is
rethrown, aborting the rest of the batch.  Returns the final store, the
counter, and the uncaught error message if one was thrown; on a successful
save the record is appended to the collection. -/
def dedupAuctions (outcome : Auction → SaveOutcome) (now : Int) :
    List Auction → List HistoricalAuction → Nat →
    (List HistoricalAuction × Nat) × Option String
  | [], store, count => ((store, count), none)
  | a :: rest, store, count =>
    if existsId store a.uuid then
      dedupAuctions outcome now rest store count
    else
      match outcome a with
      | .ok => dedupAuctions outcome now rest (store ++ [toHistorical now a]) (count + 1)
      | .dupKey => dedupAuctions outcome now rest store count
      | .err m => ((store, count), some m)

/-- Error object reaching the catch block of fetchAuctionsWithRetry:
`error.response?.status` (HTTP status of a failed axios request, when any),
`error.code` (axios sets 'ECONNABORTED' on timeout), and `error.message`. -/
structure FetchError where
  responseStatus : Option Nat
  code : Option String
  message : String
deriving DecidableEq, Repr

/-- Catch block of fetchAuctionsWithRetry (src/server.js lines 128-146) for
a failed attempt.  Returns the sleeps performed (in ms, in order) and the
rethrown error, if any.  On status 429 the block first sleeps
min(60000*attempt, 300000); the timeout (ECONNABORTED) and generic branches
only log.  Then, if this was the last attempt, the error is rethrown;
otherwise the block always sleeps delay*attempt before the next attempt. -/
def handleFetchError (attempt retries delay : Nat) (e : FetchError) :
    List Nat × Option FetchError :=
  let rateSleeps : List Nat :=
    if e.responseStatus = some 429 then [min (60000 * attempt) 300000] else []
  if attempt = retries then (rateSleeps, some e)
  else (rateSleeps ++ [delay * attempt], none)

/-- Retry loop of fetchAuctionsWithRetry (src/server.js lines 59-147).
`outcome attempt` is none when the attempt's body succeeds (the function
then returns) and some error when it throws.  The result records the list
of attempt numbers that were run and either success or the uncaught error.
`fuel` bounds the recursion; it is instantiated with `retries`, enough for
attempts 1..retries, matching the source's for-loop. -/
def fetchLoopAux (outcome : Nat → Option FetchError) (retries delay : Nat) :
    Nat → Nat → List Nat × Except FetchError Unit
  | _, 0 => ([], .ok ())
  | attempt, fuel + 1 =>
    if retries < attempt then ([], .ok ())
    else
      match outcome attempt with
      | none => ([attempt], .ok ())
      | some e =>
        match handleFetchError attempt retries delay e with
        | (_, some e') => ([attempt], .error e')
        | (_, none) =>
          let next := fetchLoopAux outcome retries delay (attempt + 1) fuel
          (attempt :: next.1, next.2)

/-- Whole fetchAuctionsWithRetry(retries = 5, delay = 30000): run attempts
starting at 1. -/
def fetchAuctionsWithRetry (outcome : Nat → Option FetchError)
    (retries : Nat := 5) (delay : Nat := 30000) :
    List Nat × Except FetchError Unit :=
  fetchLoopAux outcome retries delay 1 retries

/-- Body of the cron-scheduled job regisered by scheduleFetch (src/server.js
lines 166-174): fetchAuctionsWithRetry().catch(err => console.error('Cron
job failed:', err.message)).  The catch absorbs a cycle failure into a log
line, so the job itself never propagates an error. -/
def cronFetchJob (outcome : Nat → Option FetchError)
    (retries : Nat := 5) (delay : Nat := 30000) : Option String :=
  match (fetchAuctionsWithRetry outcome retries delay).2 with
  | .ok _ => none
  | .error e => some ("Cron job failed: " ++ e.message)

/-- Body of the initial upstream response (src/server.js lines 62-65):
success flag, optional cause, optional totalPages. -/
structure ApiInitial where
  success : Bool
  cause : Option String
  totalPages : Option Nat
deriving DecidableEq, Repr

/-- Body of one page response (src/server.js lines 74-77): success flag,
optional cause, optional auctions array. -/
structure ApiPage where
  success : Bool
  cause : Option String
  auctions : Option (List Auction)
deriving Repr

/-- Page count used by the attempt: `initialResponse.data.totalPages || 1`
(src/server.js line 65).  In JavaScript both a missing field and 0 are
falsy, so both give 1. -/
def effectiveTotalPages (i : ApiInitial) : Nat :=
  match i.totalPages with
  | none => 1
  | some 0 => 1
  | some n => n

/-- Batching loop of the attempt (src/server.js lines 70-80): for i = 0, 5,
10, ... below totalPages, the batch is the pages i, i+1, ...,
i + min(5, totalPages - i) - 1 (`Array.from(\x7blength: Math.min(...)\x7d)`).
`fuel` bounds the recursion; `pageBatches` supplies totalPages, enough
since i advances by 5 each step. -/
def pageBatchesAux (totalPages : Nat) : Nat → Nat → List (List Nat)
  | _, 0 => []
  | i, fuel + 1 =>
    if i < totalPages then
      ((List.range (min 5 (totalPages - i))).map (fun j => i + j)) ::
        pageBatchesAux totalPages (i + 5) fuel
    else []

/-- Page batches of one attempt, in construction order. -/
def pageBatches (totalPages : Nat) : List (List Nat) :=
  pageBatchesAux totalPages 0 totalPages

/-- Handler of one page request (src/server.js lines 74-77): a body with
success false rejects with 'Page N failed: cause'; otherwise the page
yields `res.data.auctions || []`. -/
def fetchPageListings (p : ApiPage) (pageNum : Nat) : Except String (List Auction) :=
  if p.success = false then
    .error ("Page " ++ toString pageNum ++ " failed: " ++ p.cause.getD "Unknown error")
  else
    .ok (p.auctions.getD [])

/-- Happy path of one attempt of fetchAuctionsWithRetry up to allAuctions
(src/server.js lines 62-82), with the upstream bodies supplied by oracles
`init` and `pages`.  A success:false initial body throws 'Hypixel API
failed: cause'; otherwise every page of every batch is fetched (any
success:false page rejects the attempt) and the per-batch results are
flattened twice, exactly as `(await Promise.all(pagePromises)).flat()`
followed by `allPagesData.flat()`. -/
def fetchAttempt (init : ApiInitial) (pages : Nat → ApiPage) :
    Except String (List Auction) :=
  if init.success = false then
    .error ("Hypixel API failed: " ++ init.cause.getD "Unknown error")
  else
    match (pageBatches (effectiveTotalPages init)).mapM
        (fun b => b.mapM (fun p => fetchPageListings (pages p) p)) with
    | .error e => .error e
    | .ok groups => .ok (groups.flatten.flatten)

/-- Pages whose axios.get call is issued during the synchronous
promise-building loop of the attempt (src/server.js lines 68-80), in call
order.  In JavaScript, `batchPages.map(page => axios.get(...))` invokes
axios.get immediately for every page of the batch, and the loop pushes
`Promise.all(...)` of the already-started requests and continues without
awaiting, so every page's request is issued before any response is
awaited. -/
def pagesRequestedEagerly (totalPages : Nat) : List Nat :=
  (pageBatches totalPages).flatten

/-- Truthiness of an optional string query parameter in JavaScript: absent
(undefined) and the empty string are falsy, any other string is truthy. -/
def jsTruthy : Option String → Bool
  | none => false
  | some s => !s.isEmpty

/-- Numeric value of a run of leading decimal digits; none when the run is
empty (parseInt returns NaN then). -/
def leadingDigitsVal (cs : List Char) : Option Nat :=
  let ds := cs.takeWhile (fun c => c.isDigit)
  if ds.isEmpty then none
  else some (ds.foldl (fun acc c => 10 * acc + (c.toNat - 48)) 0)

/-- JavaScript parseInt(s, 10): skip leading whitespace, accept one optional
sign, then read leading decimal digits; NaN (none) when no digit follows. -/
def jsParseInt (s : String) : Option Int :=
  match s.data.dropWhile (fun c => c.isWhitespace) with
  | '-' :: rest => (leadingDigitsVal rest).map (fun n => -(n : Int))
  | '+' :: rest => (leadingDigitsVal rest).map (fun n => (n : Int))
  | cs => (leadingDigitsVal cs).map (fun n => (n : Int))

/-- JavaScript `x || 0` applied to a parseInt result: NaN (none) and 0 are
falsy and give the right operand 0; any other number is returned. -/
def jsOrZero : Option Int → Int
  | none => 0
  | some n => if n = 0 then 0 else n

/-- Result of `parseInt(skip, 10)` on the optional skip parameter:
parseInt(undefined, 10) is NaN (none). -/
def skipParsed (skip : Option String) : Option Int :=
  match skip with
  | none => none
  | some s => jsParseInt s

/-- Offset of the search endpoint: `parseInt(skip, 10) || 0` (src/server.js
line 186). -/
def skipValue (skip : Option String) : Int :=
  jsOrZero (skipParsed skip)

/-- Uppercasing of `rarity.toUpperCase()` (src/server.js line 182), written
as a character-by-character map so that it evaluates by kernel reduction. -/
def toUpperStr (s : String) : String :=
  String.mk (s.data.map Char.toUpper)

/-- Case-insensitive substring containment, modelling the Mongo filter
`\x7b $regex: item, $options: 'i' \x7d` (src/server.js line 181).  Regex
metacharacters are not modelled: the pattern is taken literally. -/
def containsCI (hay pat : String) : Bool :=
  let h := hay.data.map Char.toLower
  let p := pat.data.map Char.toLower
  (List.range (h.length + 1)).any (fun i => p.isPrefixOf (h.drop i))

/-- Query string of GET /auctions/search (src/server.js line 178). -/
structure SearchQuery where
  item : Option String
  rarity : Option String
  bin : Option String
  skip : Option String

/-- Mongo query built by the search endpoint (src/server.js lines 179-183):
item adds a case-insensitive item_name regex, rarity adds
tier = rarity.toUpperCase(), bin adds bin = (bin === 'true'); each filter is
added only when the parameter is truthy. -/
def matchesQuery (q : SearchQuery) (a : Auction) : Bool :=
  (if jsTruthy q.item then containsCI a.item_name ((q.item).getD "") else true) &&
  (if jsTruthy q.rarity then decide (a.tier = toUpperStr ((q.rarity).getD "")) else true) &&
  (if jsTruthy q.bin then decide (a.bin = (((q.bin).getD "") = "true")) else true)

/-- Result list of GET /auctions/search (src/server.js lines 186-192):
Auction.find(query).sort(\x7bstarting_bid: 1\x7d).skip(skipValue).limit(100).
The sort is modelled by mergeSort on starting_bid; skip is applied as a
drop (Mongo treats the offset as a count of documents to omit) and limit
as take 100. -/
def searchAuctions (q : SearchQuery) (store : List Auction) : List Auction :=
  let matched := store.filter (matchesQuery q)
  let sorted := matched.mergeSort (fun a b => decide (a.starting_bid ≤ b.starting_bid))
  (sorted.drop (skipValue q.skip).toNat).take 100

/-- Response of GET /auctions/historical/player (src/unnamed/part_000 lines
190-213): badRequest models res.status(400).json(\x7berror\x7d), results
models res.json(auctions), thrown models an exception escaping the handler
(the ign branch performs a fetch with no try/catch). -/
inductive PlayerResponse where
  | badRequest (error : String)
  | results (rows : List HistoricalAuction)
  | thrown (msg : String)
deriving Repr

/-- Hyphen stripping: the source's `.replace` of every '-' with '' applied
to identifiers, written as a character filter so that it evaluates by
kernel reduction. -/
def stripHyphens (s : String) : String :=
  String.mk (s.data.filter (fun c => c != '-'))

/-- Handler of GET /auctions/historical/player (src/unnamed/part_000 lines
190-213).  A truthy ign resolves the player through the Mojang lookup
(oracle `mojangId`, Except because the unguarded fetch/json/`.id` access can
throw); otherwise a truthy uuid is used directly; otherwise the handler
returns 400 with \x7berror: 'Either ign or uuid must be provided'\x7d.  With
an identifier, the historical store is filtered on auctioneer, and on end >
now when activeOnly === 'true'.  The second component records whether
HistoricalAuction.find was reached. -/
def historicalPlayer (ign uuid activeOnly : Option String)
    (mojangId : String → Except String String)
    (store : List HistoricalAuction) (now : Int) :
    PlayerResponse × Bool :=
  if jsTruthy ign then
    match mojangId (ign.getD "") with
    | .error m => (.thrown m, false)
    | .ok rawId =>
      let playerUuid := stripHyphens rawId
      (.results (store.filter (fun h =>
        decide (h.auctioneer = playerUuid) &&
        (if activeOnly = some "true" then decide (now < h.endTime) else true))), true)
  else if jsTruthy uuid then
    let playerUuid := stripHyphens (uuid.getD "")
    (.results (store.filter (fun h =>
      decide (h.auctioneer = playerUuid) &&
      (if activeOnly = some "true" then decide (now < h.endTime) else true))), true)
  else
    (.badRequest "Either ign or uuid must be provided", false)

/-! Sample records used by the witness theorems. -/

/-- Sample historical record, already expired at time 5. -/
def histA : HistoricalAuction :=
  { _id := "a", item_name := "Aspect", starting_bid := 10, tier := "RARE",
    bin := true, endTime := 3, auctioneer := "p1", first_seen := 0 }

/-- Sample historical record, still active at time 5. -/
def histB : HistoricalAuction :=
  { _id := "b", item_name := "Hyperion", starting_bid := 7, tier := "LEGENDARY",
    bin := false, endTime := 10, auctioneer := "p2", first_seen := 0 }

/-- Sample current listing. -/
def aucA : Auction :=
  { uuid := "a", auctioneer := "p1", item_name := "Aspect", starting_bid := 10,
    tier := "RARE", bin := true, endTime := 3, item_lore := "" }

/-- Second sample current listing. -/
def aucB : Auction :=
  { uuid := "b", auctioneer := "p2", item_name := "Hyperion", starting_bid := 7,
    tier := "LEGENDARY", bin := false, endTime := 10, item_lore := "" }

/-- Third sample current listing. -/
def aucC : Auction :=
  { uuid := "c", auctioneer := "p3", item_name := "Terminator", starting_bid := 5,
    tier := "LEGENDARY", bin := true, endTime := 20, item_lore := "" }

/-- Error object of a rate-limited request: axios rejects with
error.response.status = 429. -/
def rateLimitErr : FetchError :=
  { responseStatus := some 429, code := none,
    message := "Request failed with status code 429" }

/-- Error object of a timed-out request: axios rejects with
error.code = 'ECONNABORTED' and no response. -/
def timeoutErr : FetchError :=
  { responseStatus := none, code := some "ECONNABORTED",
    message := "timeout of 30000ms exceeded" }

/-- C2: for every store state and sweep time `now`, after
cleanupExpiredAuctions every historical record with end ≤ now is absent,
every record with end > now is in the swept store exactly when it was in
the store before (the member is the record itself, so all its fields are
unchanged), and sweeping the swept store again deletes nothing further. -/
theorem cleanup_expired_correct (now : Int) (store : List HistoricalAuction)
    (r : HistoricalAuction) :
    (r.endTime ≤ now → r ∉ cleanupExpiredAuctions now store) ∧
    (now < r.endTime → (r ∈ cleanupExpiredAuctions now store ↔ r ∈ store)) ∧
    cleanupExpiredAuctions now (cleanupExpiredAuctions now store) =
      cleanupExpiredAuctions now store := by
  refine ⟨?_, ?_, ?_⟩
  · intro hle hmem
    rw [cleanupExpiredAuctions, List.mem_filter] at hmem
    simp at hmem
    omega
  · intro hgt
    rw [cleanupExpiredAuctions, List.mem_filter]
    simp
    intro _
    omega
  · rw [cleanupExpiredAuctions, cleanupExpiredAuctions, List.filter_filter]
    congr 1
    funext h
    cases hd : decide (h.endTime ≤ now) <;> simp [hd]

/-- Witness for C2 at a concrete store and sweep time: at time 5, histA
(end 3) is swept out and histB (end 10) survives. -/
theorem cleanup_expired_correct_witness :
    histA.endTime ≤ 5 ∧ histA ∉ cleanupExpiredAuctions 5 [histA, histB] ∧
    (5 : Int) < histB.endTime ∧
    (histB ∈ cleanupExpiredAuctions 5 [histA, histB] ↔ histB ∈ [histA, histB]) := by
  refine ⟨by decide, (cleanup_expired_correct 5 [histA, histB] histA).1 (by decide),
    by decide, (cleanup_expired_correct 5 [histA, histB] histB).2.1 (by decide)⟩

/-- C3 counterexample: the claim's delays are wrong at concrete inputs.
For a 429 failure at attempt 1 (retries 5, delay 30000) the code sleeps
60000 and then also 30000, so the total wait is 90000, not
min(60000*1, 300000) = 60000; and for a timeout the wait is delay*attempt,
which differs between attempts 1 and 2, so it is not a fixed delay. -/
theorem retry_backoff_claim_counterexample :
    (handleFetchError 1 5 30000 rateLimitErr).1.sum ≠ min (60000 * 1) 300000 ∧
    (handleFetchError 2 5 30000 timeoutErr).1.sum ≠
      (handleFetchError 1 5 30000 timeoutErr).1.sum := by
  decide

/-- C3 amended: before every non-final retry the code waits
min(60000*attempt, 300000) + delay*attempt after an HTTP 429 failure and
delay*attempt after a timeout or any other failure (the unconditional
delay*attempt sleep of line 145 runs in every branch), and nothing is
rethrown. -/
theorem retry_backoff_amended (attempt retries delay : Nat) (e : FetchError)
    (h : attempt ≠ retries) :
    (handleFetchError attempt retries delay e).1.sum =
      (if e.responseStatus = some 429 then min (60000 * attempt) 300000 else 0) +
        delay * attempt ∧
    (handleFetchError attempt retries delay e).2 = none := by
  rw [handleFetchError]
  simp only [h, if_false]
  by_cases h429 : e.responseStatus = some 429 <;> simp [h429]

/-- Witness for C3's amended statement at attempt 1 of 5 with delay 30000:
a 429 failure waits 60000 + 30000 and a timeout waits 30000. -/
theorem retry_backoff_amended_witness :
    (handleFetchError 1 5 30000 rateLimitErr).1.sum =
      (if rateLimitErr.responseStatus = some 429 then min (60000 * 1) 300000 else 0) +
        30000 * 1 ∧
    (handleFetchError 1 5 30000 timeoutErr).1.sum =
      (if timeoutErr.responseStatus = some 429 then min (60000 * 1) 300000 else 0) +
        30000 * 1 :=
  ⟨(retry_backoff_amended 1 5 30000 rateLimitErr (by decide)).1,
   (retry_backoff_amended 1 5 30000 timeoutErr (by decide)).1⟩

/-- C9: the offset of the search endpoint is 0 whenever parseInt(skip, 10)
yields NaN (skip absent, empty, or with no leading numeric part), and the
parsed integer otherwise (for a parsed 0 the falsy fallback also yields 0,
which equals the parsed value). -/
theorem skip_offset_parse (skip : Option String) :
    (skipParsed skip = none → skipValue skip = 0) ∧
    (∀ n : Int, skipParsed skip = some n → skipValue skip = n) := by
  constructor
  · intro h
    rw [skipValue, h, jsOrZero]
  · intro n h
    rw [skipValue, h, jsOrZero]
    by_cases hn : n = 0 <;> simp [hn]

/-- Witness for C9 at concrete parameters: skip = "abc" does not parse and
gives offset 0; skip = "12px" parses to 12 and gives offset 12. -/
theorem skip_offset_parse_witness :
    skipValue (some "abc") = 0 ∧ skipValue (some "12px") = 12 :=
  ⟨(skip_offset_parse (some "abc")).1 (by decide),
   (skip_offset_parse (some "12px")).2 12 (by decide)⟩

/-- C10: when neither ign nor uuid is supplied (both absent or empty, the
falsy cases of the source's truthiness tests), the historical-player
endpoint responds 400 with \x7berror: 'Either ign or uuid must be
provided'\x7d and never reaches the historical store query. -/
theorem historical_player_requires_identifier
    (ign uuid activeOnly : Option String)
    (mojangId : String → Except String String)
    (store : List HistoricalAuction) (now : Int)
    (hign : jsTruthy ign = false) (huuid : jsTruthy uuid = false) :
    historicalPlayer ign uuid activeOnly mojangId store now =
      (.badRequest "Either ign or uuid must be provided", false) := by
  rw [historicalPlayer]
  simp [hign, huuid]

/-- Witness for C10 at a concrete request with no ign and no uuid. -/
theorem historical_player_requires_identifier_witness :
    historicalPlayer none none none (fun _ => .error "unreachable") [histA] 0 =
      (.badRequest "Either ign or uuid must be provided", false) :=
  historical_player_requires_identifier none none none (fun _ => .error "unreachable")
    [histA] 0 (by decide) (by decide)

/-- C7: every search result has at most 100 listings, the listings are in
non-decreasing starting_bid order, and a query matched by no listing of the
store yields the empty list rather than an error. -/
theorem search_bounded_sorted_empty (q : SearchQuery) (store : List Auction) :
    (searchAuctions q store).length ≤ 100 ∧
    List.Pairwise (fun a b => a.starting_bid ≤ b.starting_bid) (searchAuctions q store) ∧
    ((∀ a ∈ store, matchesQuery q a = false) → searchAuctions q store = []) := by
  refine ⟨List.length_take_le _ _, ?_, ?_⟩
  · have hsorted :
        List.Pairwise
          (fun a b : Auction => decide (a.starting_bid ≤ b.starting_bid) = true)
          ((store.filter (matchesQuery q)).mergeSort
            (fun a b => decide (a.starting_bid ≤ b.starting_bid))) := by
      apply List.sorted_mergeSort
      · intro a b c hab hbc
        simp only [decide_eq_true_eq] at hab hbc ⊢
        exact le_trans hab hbc
      · intro a b
        simp only [Bool.or_eq_true, decide_eq_true_eq]
        exact le_total a.starting_bid b.starting_bid
    have hsub : (searchAuctions q store).Sublist
        ((store.filter (matchesQuery q)).mergeSort
          (fun a b => decide (a.starting_bid ≤ b.starting_bid))) :=
      (List.take_sublist _ _).trans (List.drop_sublist _ _)
    exact (hsorted.sublist hsub).imp (fun h => by simpa using h)
  · intro hnone
    have hfil : store.filter (matchesQuery q) = [] :=
      List.filter_eq_nil_iff.mpr (fun a ha => by simp [hnone a ha])
    simp [searchAuctions, hfil]

/-- Query used by the C7 witness: item filter 'sword'. -/
def sampleQuery : SearchQuery :=
  { item := some "sword", rarity := none, bin := none, skip := none }

/-- Witness for C7 at a concrete query and store: searching 'sword' in a
store holding only a Terminator listing returns the empty array. -/
theorem search_bounded_sorted_empty_witness :
    searchAuctions sampleQuery [aucC] = [] :=
  (search_bounded_sorted_empty sampleQuery [aucC]).2.2 (by decide)

/-- Increment bound of the dedup loop: the counter grows by at most the
length of the remaining batch. -/
theorem dedupAuctions_count_le (outcome : Auction → SaveOutcome) (now : Int) :
    ∀ (batch : List Auction) (store : List HistoricalAuction) (count : Nat),
    (dedupAuctions outcome now batch store count).1.2 ≤ count + batch.length := by
  intro batch
  induction batch with
  | nil => intro store count; simp [dedupAuctions]
  | cons a rest ih =>
    intro store count
    rw [dedupAuctions]
    cases hex : existsId store a.uuid with
    | true =>
      simp only [hex, reduceIte]
      exact le_trans (ih store count) (by simp only [List.length_cons]; omega)
    | false =>
      cases houtc : outcome a with
      | ok =>
        exact le_trans (ih (store ++ [toHistorical now a]) (count + 1))
          (by simp only [List.length_cons]; omega)
      | dupKey =>
        exact le_trans (ih store count) (by simp only [List.length_cons]; omega)
      | err m =>
        exact Nat.le_add_right count _

/-- A uuid present in the store stays present through the dedup loop. -/
theorem dedupAuctions_existsId_mono (outcome : Auction → SaveOutcome) (now : Int) :
    ∀ (batch : List Auction) (store : List HistoricalAuction) (count : Nat)
      (u : String), existsId store u = true →
    existsId (dedupAuctions outcome now batch store count).1.1 u = true := by
  intro batch
  induction batch with
  | nil => intro store count u h; simpa [dedupAuctions] using h
  | cons a rest ih =>
    intro store count u h
    rw [dedupAuctions]
    by_cases hex : existsId store a.uuid = true
    · simp only [hex, if_true]
      exact ih store count u h
    · simp only [hex, if_false]
      cases houtc : outcome a with
      | ok =>
        apply ih (store ++ [toHistorical now a]) (count + 1) u
        rw [existsId] at h ⊢
        rw [List.any_append, h]
        rfl
      | dupKey => exact ih store count u h
      | err m => exact h

/-- With an all-successful save oracle, after the dedup loop every uuid of
the batch is present in the resulting store. -/
theorem dedupAuctions_mem_exists (outcome : Auction → SaveOutcome) (now : Int)
    (hok : ∀ a, outcome a = .ok) :
    ∀ (batch : List Auction) (store : List HistoricalAuction) (count : Nat),
    ∀ a ∈ batch,
    existsId (dedupAuctions outcome now batch store count).1.1 a.uuid = true := by
  intro batch
  induction batch with
  | nil => intro store count a ha; exact absurd ha (List.not_mem_nil a)
  | cons b rest ih =>
    intro store count a ha
    rw [dedupAuctions]
    rcases List.mem_cons.mp ha with rfl | hmem
    · by_cases hex : existsId store a.uuid = true
      · simp only [hex, if_true]
        exact dedupAuctions_existsId_mono outcome now rest store count a.uuid hex
      · simp only [hex, if_false, hok a]
        apply dedupAuctions_existsId_mono outcome now rest _ (count + 1) a.uuid
        rw [existsId, List.any_append]
        have : (toHistorical now a)._id = a.uuid := rfl
        simp [this]
    · by_cases hex : existsId store b.uuid = true
      · simp only [hex, if_true]
        exact ih store count a hmem
      · simp only [hex, if_false, hok b]
        exact ih _ (count + 1) a hmem

/-- When every uuid of the batch already exists in the store, the dedup
loop inserts nothing, changes nothing and raises nothing. -/
theorem dedupAuctions_all_exist (outcome : Auction → SaveOutcome) (now : Int) :
    ∀ (batch : List Auction) (store : List HistoricalAuction) (count : Nat),
    (∀ a ∈ batch, existsId store a.uuid = true) →
    dedupAuctions outcome now batch store count = ((store, count), none) := by
  intro batch
  induction batch with
  | nil => intro store count _; rw [dedupAuctions]
  | cons a rest ih =>
    intro store count h
    rw [dedupAuctions]
    have hex : existsId store a.uuid = true := h a (List.mem_cons_self a rest)
    simp only [hex, if_true]
    exact ih store count (fun b hb => h b (List.mem_cons_of_mem a hb))

/-- C1: with saves succeeding (no concurrent interference), one run of the
history deduplicator over batch B starting from any store inserts at most
|B| new records, and a second run of the deduplicator over the same B
against the store produced by the first run inserts 0 records (and leaves
the store unchanged). -/
theorem dedup_bounded_and_idempotent (outcome : Auction → SaveOutcome)
    (now now2 : Int) (batch : List Auction) (store : List HistoricalAuction)
    (hok : ∀ a, outcome a = .ok) :
    (dedupAuctions outcome now batch store 0).1.2 ≤ batch.length ∧
    dedupAuctions outcome now2 batch (dedupAuctions outcome now batch store 0).1.1 0 =
      (((dedupAuctions outcome now batch store 0).1.1, 0), none) := by
  constructor
  · simpa using dedupAuctions_count_le outcome now batch store 0
  · exact dedupAuctions_all_exist outcome now2 batch _ 0
      (fun a ha => dedupAuctions_mem_exists outcome now hok batch store 0 a ha)

/-- Witness for C1: two listings deduplicated twice from the empty store;
the first run inserts at most 2 records and the second inserts 0. -/
theorem dedup_bounded_and_idempotent_witness :
    (dedupAuctions (fun _ => .ok) 0 [aucA, aucB] [] 0).1.2 ≤ [aucA, aucB].length ∧
    dedupAuctions (fun _ => .ok) 1 [aucA, aucB]
        (dedupAuctions (fun _ => .ok) 0 [aucA, aucB] [] 0).1.1 0 =
      (((dedupAuctions (fun _ => .ok) 0 [aucA, aucB] [] 0).1.1, 0), none) :=
  dedup_bounded_and_idempotent (fun _ => .ok) 0 1 [aucA, aucB] [] (fun _ => rfl)

/-- Processing a prefix of the batch that raises nothing continues with the
rest of the batch from the prefix's final store and counter. -/
theorem dedupAuctions_append (outcome : Auction → SaveOutcome) (now : Int) :
    ∀ (pre ys : List Auction) (store : List HistoricalAuction) (count : Nat)
      (s1 : List HistoricalAuction) (c1 : Nat),
    dedupAuctions outcome now pre store count = ((s1, c1), none) →
    dedupAuctions outcome now (pre ++ ys) store count =
      dedupAuctions outcome now ys s1 c1 := by
  intro pre
  induction pre with
  | nil =>
    intro ys store count s1 c1 h
    rw [dedupAuctions] at h
    simp only [Prod.mk.injEq] at h
    obtain ⟨⟨h1, h2⟩, _⟩ := h
    subst h1; subst h2
    rfl
  | cons a pre ih =>
    intro ys store count s1 c1 h
    rw [dedupAuctions] at h
    rw [List.cons_append, dedupAuctions]
    by_cases hex : existsId store a.uuid = true
    · simp only [hex, if_true] at h ⊢
      exact ih ys store count s1 c1 h
    · simp only [hex, if_false] at h ⊢
      cases houtc : outcome a with
      | ok =>
        rw [houtc] at h
        exact ih ys _ _ s1 c1 h
      | dupKey =>
        rw [houtc] at h
        exact ih ys store count s1 c1 h
      | err m =>
        rw [houtc] at h
        simp at h

/-- C4: after a cleanly processed prefix, a record whose save races into a
duplicate-key violation (code 11000) is skipped and processing continues
with the rest of the batch from the same store and counter, while a record
whose save fails with any other error aborts processing immediately: the
rest of the batch is untouched, the error propagates, and the records
already inserted (the prefix's store) remain. -/
theorem dedup_dupkey_skips_other_error_aborts (outcome : Auction → SaveOutcome)
    (now : Int) (pre post : List Auction) (store s1 : List HistoricalAuction)
    (count c1 : Nat) (a b : Auction) (m : String)
    (hpre : dedupAuctions outcome now pre store count = ((s1, c1), none))
    (haNew : existsId s1 a.uuid = false) (ha : outcome a = .dupKey)
    (hbNew : existsId s1 b.uuid = false) (hb : outcome b = .err m) :
    dedupAuctions outcome now (pre ++ a :: post) store count =
      dedupAuctions outcome now post s1 c1 ∧
    dedupAuctions outcome now (pre ++ b :: post) store count = ((s1, c1), some m) := by
  constructor
  · rw [dedupAuctions_append outcome now pre (a :: post) store count s1 c1 hpre,
      dedupAuctions]
    simp [haNew, ha]
  · rw [dedupAuctions_append outcome now pre (b :: post) store count s1 c1 hpre,
      dedupAuctions]
    simp [hbNew, hb]

/-- Save oracle of the C4 witness: the save of uuid 'b' hits a duplicate key
(11000), the save of uuid 'c' fails with an unexpected store error, all
others succeed. -/
def sampleOutcome : Auction → SaveOutcome := fun x =>
  if x.uuid = "b" then .dupKey
  else if x.uuid = "c" then .err "boom" else .ok

/-- Witness for C4 at a concrete batch: after inserting aucA, a dup-key on
aucB just skips it, while a store error on aucC aborts with aucA's record
still in the store. -/
theorem dedup_dupkey_skips_other_error_aborts_witness :
    dedupAuctions sampleOutcome 0 ([aucA] ++ aucB :: [aucC]) [] 0 =
      dedupAuctions sampleOutcome 0 [aucC] [toHistorical 0 aucA] 1 ∧
    dedupAuctions sampleOutcome 0 ([aucA] ++ aucC :: [aucB]) [] 0 =
      (([toHistorical 0 aucA], 1), some "boom") :=
  dedup_dupkey_skips_other_error_aborts sampleOutcome 0 [aucA] _ [] [toHistorical 0 aucA]
    0 1 aucB aucC "boom" (by decide) (by decide) (by decide) (by decide) (by decide)

/-- A mapM over Except (the model of Promise.all over page requests) fails
whenever some element of the list fails. -/
theorem mapM_error_of_mem {α β ε : Type} (f : α → Except ε β) :
    ∀ (l : List α) (x : α), x ∈ l → (∃ e, f x = .error e) →
    ∃ e, l.mapM f = .error e := by
  intro l
  induction l with
  | nil => intro x hx _; exact absurd hx (List.not_mem_nil x)
  | cons a l ih =>
    intro x hx hfx
    rw [List.mapM_cons]
    cases hfa : f a with
    | error e => exact ⟨e, rfl⟩
    | ok b =>
      rcases List.mem_cons.mp hx with rfl | hmem
      · obtain ⟨e, he⟩ := hfx
        rw [hfa] at he
        exact absurd he (by simp)
      · obtain ⟨e, he⟩ := ih x hmem hfx
        exact ⟨e, by rw [he]; rfl⟩

/-- The page batches of one attempt cover, in order, exactly the page
numbers i, i+1, ..., totalPages-1 from the starting index i. -/
theorem pageBatchesAux_flatten (total : Nat) :
    ∀ (fuel i : Nat), total - i ≤ fuel →
    (pageBatchesAux total i fuel).flatten = List.range' i (total - i) := by
  intro fuel
  induction fuel with
  | zero =>
    intro i h
    have h0 : total - i = 0 := Nat.le_zero.mp h
    rw [pageBatchesAux, h0]
    rfl
  | succ fuel ih =>
    intro i h
    rw [pageBatchesAux]
    by_cases hi : i < total
    · rw [if_pos hi, List.flatten_cons, ih (i + 5) (by omega),
        ← List.range'_eq_map_range i (min 5 (total - i))]
      by_cases h5 : total - i ≤ 5
      · rw [Nat.min_eq_right h5]
        have h0 : total - (i + 5) = 0 := by omega
        rw [h0]
        simp
      · rw [Nat.min_eq_left (by omega)]
        have heq : total - (i + 5) = total - i - 5 := by omega
        rw [heq, List.range'_append_1]
        have : total - i - 5 + 5 = total - i := by omega
        rw [this]
    · rw [if_neg hi]
      have h0 : total - i = 0 := by omega
      rw [h0]
      rfl

/-- All pages of one attempt, flattened across the batches in construction
order, are exactly pages 0 .. totalPages-1. -/
theorem pageBatches_flatten (total : Nat) :
    (pageBatches total).flatten = List.range total := by
  rw [pageBatches, pageBatchesAux_flatten total total 0 (by omega), Nat.sub_zero]
  exact (List.range_eq_range' total).symm

/-- C5: a response body carrying success:false fails the whole fetch
attempt, whether it is the initial page-count response or any individual
page among the requested ones; the attempt never produces a listings
batch from such a response. -/
theorem attempt_rejects_logical_failure (init : ApiInitial) (pages : Nat → ApiPage) :
    (init.success = false → (fetchAttempt init pages).isOk = false) ∧
    (∀ p, p < effectiveTotalPages init → (pages p).success = false →
      (fetchAttempt init pages).isOk = false) := by
  have hfail : init.success = false → (fetchAttempt init pages).isOk = false := by
    intro hs
    rw [fetchAttempt, if_pos hs]
    rfl
  refine ⟨hfail, ?_⟩
  intro p hp hps
  by_cases hs : init.success = false
  · exact hfail hs
  · have hpmem : p ∈ (pageBatches (effectiveTotalPages init)).flatten := by
      rw [pageBatches_flatten]
      exact List.mem_range.mpr hp
    obtain ⟨b, hb, hpb⟩ := List.mem_flatten.mp hpmem
    have hpage : ∃ e, fetchPageListings (pages p) p = .error e :=
      ⟨"Page " ++ toString p ++ " failed: " ++ ((pages p).cause.getD "Unknown error"),
        by rw [fetchPageListings, if_pos hps]⟩
    have hinner : ∃ e, b.mapM (fun q => fetchPageListings (pages q) q) = .error e :=
      mapM_error_of_mem _ b p hpb hpage
    obtain ⟨e, he⟩ := mapM_error_of_mem
      (fun bb => bb.mapM (fun q => fetchPageListings (pages q) q))
      (pageBatches (effectiveTotalPages init)) b hb hinner
    rw [fetchAttempt, if_neg hs, he]
    rfl

/-- Initial body of the C5 witness: success false. -/
def badInit : ApiInitial :=
  { success := false, cause := some "Service down", totalPages := some 3 }

/-- Initial body of the C5 witness's page case: success true, 2 pages. -/
def okInit : ApiInitial :=
  { success := true, cause := none, totalPages := some 2 }

/-- Page oracle of the C5 witness: page 1 answers success:false (with HTTP
success), every other page answers normally. -/
def samplePages : Nat → ApiPage := fun p =>
  if p = 1 then { success := false, cause := some "Invalid page", auctions := none }
  else { success := true, cause := none, auctions := some [aucA] }

/-- Witness for C5: a success:false initial body fails the attempt, and a
success:false body on page 1 of 2 fails the attempt. -/
theorem attempt_rejects_logical_failure_witness :
    (fetchAttempt badInit samplePages).isOk = false ∧
    (fetchAttempt okInit samplePages).isOk = false :=
  ⟨(attempt_rejects_logical_failure badInit samplePages).1 rfl,
   (attempt_rejects_logical_failure okInit samplePages).2 1 (by decide) rfl⟩

/-- When every attempt up to the retry budget fails, the retry loop runs
the attempts attempt, attempt+1, ..., retries in order and rethrows the
last attempt's error. -/
theorem fetchLoopAux_all_fail (outcome : Nat → Option FetchError) (retries delay : Nat)
    (errOf : Nat → FetchError)
    (h : ∀ i, 1 ≤ i → i ≤ retries → outcome i = some (errOf i)) :
    ∀ (fuel attempt : Nat), 1 ≤ attempt → attempt ≤ retries →
      retries - attempt < fuel →
    fetchLoopAux outcome retries delay attempt fuel =
      (List.range' attempt (retries - attempt + 1), .error (errOf retries)) := by
  intro fuel
  induction fuel with
  | zero => intro attempt _ _ hf; omega
  | succ fuel ih =>
    intro attempt h1 h2 hf
    rw [fetchLoopAux, if_neg (by omega : ¬ retries < attempt)]
    simp only [h attempt h1 h2]
    by_cases heq : attempt = retries
    · subst heq
      have hh : handleFetchError attempt attempt delay (errOf attempt) =
          ((if (errOf attempt).responseStatus = some 429
            then [min (60000 * attempt) 300000] else []), some (errOf attempt)) := by
        simp [handleFetchError]
      simp only [hh, Nat.sub_self]
      simp [List.range'_one]
    · have hh : handleFetchError attempt retries delay (errOf attempt) =
          ((if (errOf attempt).responseStatus = some 429
            then [min (60000 * attempt) 300000] else []) ++ [delay * attempt], none) := by
        simp [handleFetchError, heq]
      simp only [hh]
      rw [ih (attempt + 1) (by omega) (by omega) (by omega)]
      have harith : retries - (attempt + 1) + 1 = retries - attempt := by omega
      rw [harith]
      simp [List.range'_succ]

/-- C6: when all of the retries attempts fail (default 5), the whole
fetchAuctionsWithRetry call runs exactly the attempts 1..retries and
propagates the error of the last attempt to its caller, and the
cron-scheduled wrapper absorbs that error into a log line instead of
letting it escape, so the failure is confined to the cycle. -/
theorem retry_exhaustion_confined (outcome : Nat → Option FetchError)
    (retries delay : Nat) (errOf : Nat → FetchError) (hr : 1 ≤ retries)
    (h : ∀ i, 1 ≤ i → i ≤ retries → outcome i = some (errOf i)) :
    fetchAuctionsWithRetry outcome retries delay =
      (List.range' 1 retries, .error (errOf retries)) ∧
    cronFetchJob outcome retries delay =
      some ("Cron job failed: " ++ (errOf retries).message) := by
  have hmain : fetchLoopAux outcome retries delay 1 retries =
      (List.range' 1 (retries - 1 + 1), .error (errOf retries)) :=
    fetchLoopAux_all_fail outcome retries delay errOf h retries 1 le_rfl hr (by omega)
  have he : retries - 1 + 1 = retries := by omega
  rw [he] at hmain
  constructor
  · rw [fetchAuctionsWithRetry, hmain]
  · rw [cronFetchJob, fetchAuctionsWithRetry, hmain]

/-- Attempt errors of the C6 witness. -/
def failEvery : Nat → FetchError := fun i =>
  { responseStatus := none, code := none, message := "attempt " ++ toString i ++ " failed" }

/-- Witness for C6 at the default configuration (5 retries, delay 30000)
with every attempt failing: attempts 1..5 run, the 5th error propagates,
and the scheduled job turns it into a log entry. -/
theorem retry_exhaustion_confined_witness :
    fetchAuctionsWithRetry (fun i => some (failEvery i)) 5 30000 =
      (List.range' 1 5, .error (failEvery 5)) ∧
    cronFetchJob (fun i => some (failEvery i)) 5 30000 =
      some ("Cron job failed: " ++ (failEvery 5).message) :=
  retry_exhaustion_confined (fun i => some (failEvery i)) 5 30000 failEvery
    (by decide) (fun i _ _ => rfl)

/-- C8 finding: with totalPages = 10 the synchronous promise-building loop
issues the axios request of every one of the 10 pages - exactly pages
0..9 - before any response is awaited, so 10 > 5 requests are outstanding
at once; the Promise.all grouping only groups how results are collected
and bounds nothing. -/
theorem pages_all_requested_at_once :
    pagesRequestedEagerly 10 = List.range 10 ∧
    5 < (pagesRequestedEagerly 10).length := by
  constructor
  · exact pageBatches_flatten 10
  · decide

end SBAuction
